import Mathlib

/-!
Verification of the label layout engine of `src/badge_app.py`
(`get_font_path`, lines 95-133, and `create_label_image`, lines 146-211).

The engine is shallowly embedded: the external world (filesystem, the PIL
font loader `ImageFont.truetype` / `ImageFont.load_default`, the rasterizer
measurement `ImageDraw.textbbox`, and the FreeType metrics
`FreeTypeFont.getmetrics`) is abstracted as an `Env` record of pure
functions, and each Python function becomes a Lean function over `Env`.
Python integer floor division `//` is `Int.fdiv`; the produced PIL image is
modelled by its constructor arguments (mode, size, background) together
with the list of `draw.text` calls performed on it.
-/

/-- The four components returned by `ImageDraw.textbbox`: the tight bounding
box `(left, top, right, bottom)` of the rendered glyph outlines. -/
structure BBox where
  left : Int
  top : Int
  right : Int
  bottom : Int
deriving DecidableEq, Repr

/-- Width of a tight bounding box, `text_bbox[2] - text_bbox[0]` in the source. -/
def BBox.width (b : BBox) : Int := b.right - b.left

/-- Height of a tight bounding box, `text_bbox[3] - text_bbox[1]` in the source. -/
def BBox.height (b : BBox) : Int := b.bottom - b.top

/-- A font handle as produced by `get_font_path`: either a scalable TrueType
font loaded from a path at a pixel size (`ImageFont.truetype(font_path,
font_size)`) or the engine's built-in bitmap fallback
(`ImageFont.load_default()`), which carries no size. -/
inductive Font where
  | truetype (path : String) (size : Nat)
  | default_
deriving DecidableEq, Repr

/-- The external environment of the engine: the filesystem and the PIL
library calls it makes.  `pathExists` is `os.path.exists`; `ttLoad`
tells whether `ImageFont.truetype(path, size)` succeeds; `defaultLoads`
tells whether `ImageFont.load_default()` succeeds (with stock PIL it always
does; it is kept abstract so that the no-font-at-all condition is
expressible); `ttBbox`/`defaultBbox` are `ImageDraw.textbbox` for the two
kinds of font handle (`load_default` ignores size, so `defaultBbox` takes
none); `ttMetrics` is `FreeTypeFont.getmetrics()` returning
`(ascent, descent)` (only TrueType handles have `getmetrics`, so the
`hasattr(font, 'getmetrics')` test in the source distinguishes the two
constructors); `inkFree` is an observation on the rasterizer: whether
drawing the given string in the given font deposits no ink (e.g. strings
made of blanks). -/
structure Env where
  is_windows : Bool
  windir : Option String
  pathExists : String → Bool
  ttLoad : String → Nat → Bool
  defaultLoads : Bool
  ttBbox : String → Nat → String → BBox
  defaultBbox : String → BBox
  ttMetrics : String → Nat → Int × Int
  inkFree : Font → String → Bool

/-- Error taxonomy of the layout engine (spec section 7).  The source has no
named error classes; `fontUnavailable` stands for the exception that
`ImageFont.load_default()` would raise when even the built-in font cannot be
loaded, which propagates uncaught out of `get_font_path` and
`create_label_image`; `invalidRequest` appears only in the spec-modelled
`layoutAndRender` interface. -/
inductive LayoutError where
  | fontUnavailable
  | invalidRequest
deriving DecidableEq, Repr

/-- The hardcoded font path list walked by `get_font_path`
(`src/badge_app.py` lines 99-118): six files under the Windows fonts
directory when `IS_WINDOWS`, else five Linux/Unix entries.
`os.path.join(windows_fonts_dir, f)` is string concatenation with the
Windows separator, and `windows_fonts_dir` is
`os.path.join(os.environ.get('WINDIR', 'C:\\Windows'), 'Fonts')`. -/
def font_paths (env : Env) : List String :=
  if env.is_windows then
    let windows_fonts_dir := (env.windir.getD "C:\\Windows") ++ "\\Fonts"
    [windows_fonts_dir ++ "\\arial.ttf",
     windows_fonts_dir ++ "\\arialbd.ttf",
     windows_fonts_dir ++ "\\calibri.ttf",
     windows_fonts_dir ++ "\\calibrib.ttf",
     windows_fonts_dir ++ "\\segoeui.ttf",
     windows_fonts_dir ++ "\\segoeuib.ttf"]
  else
    ["arial.ttf",
     "calibri.ttf",
     "/usr/share/fonts/truetype/dejavu/DejaVuSans.ttf",
     "/usr/share/fonts/truetype/liberation/LiberationSans-Regular.ttf",
     "DejaVuSans.ttf"]

/-- `get_font_path(font_name, font_size)` (`src/badge_app.py` lines 95-133):
walk the fixed path list; the first path that exists and loads as a TrueType
font at `font_size` is returned; when none does, fall back to
`ImageFont.load_default()` (which, if it fails in turn, raises out of the
function — the `error` branch).  Note that the `font_name` parameter is
never consulted by the body. -/
def get_font_path (env : Env) (font_name : String) (font_size : Nat) :
    Except LayoutError Font :=
  match (font_paths env).find? (fun fp => env.pathExists fp && env.ttLoad fp font_size) with
  | some fp => .ok (.truetype fp font_size)
  | none => if env.defaultLoads then .ok .default_ else .error .fontUnavailable

/-- `draw.textbbox((0, 0), text, font=font)`: measurement of the tight
bounding box, dispatched on the kind of font handle. -/
def textbbox (env : Env) (font : Font) (text : String) : BBox :=
  match font with
  | .truetype p s => env.ttBbox p s text
  | .default_ => env.defaultBbox text

/-- One recorded `draw.text((x, y), text, fill=..., font=...)` call. -/
structure DrawOp where
  x : Int
  y : Int
  text : String
  fill : String
  font : Font
deriving DecidableEq, Repr

/-- The produced PIL image, modelled by the arguments of
`Image.new(mode, (width, height), background)` plus the drawing calls
performed on it. -/
structure LabelImage where
  mode : String
  width : Int
  height : Int
  background : String
  draws : List DrawOp
deriving DecidableEq, Repr

/-- An image is blank (shows only its background) when every string drawn on
it deposits no ink under the environment's rasterizer. -/
def LabelImage.isBlank (env : Env) (img : LabelImage) : Bool :=
  img.draws.all (fun d => env.inkFree d.font d.text)

/-- The `while font_size > 20` search loop of `create_label_image`
(`src/badge_app.py` lines 167-180), started at a given `font_size`:
load a font for the current size, measure the tight bounding box of
`full_name`, accept when `text_width <= max_text_width and text_height <=
max_text_height`, else retry at `font_size - 5`.  The margin bounds are the
loop-invariant values computed at lines 160-161:
`int(991 * 0.95) = 941` and `int(306 * 0.9) = 275` (the Python float
products evaluate to `941.4499999999999` and `275.40000000000003`).
`ok (some (size, font))` is exit by the accepting `break`, `ok none` is
exhaustion of the loop condition.  The source's `else: break` arm (taken
when `font` is falsy) has no counterpart because `get_font_path` never
returns a falsy value: it either returns a font object or raises. -/
def fit_loop (env : Env) (full_name : String) (font_size : Nat) :
    Except LayoutError (Option (Nat × Font)) :=
  if h : font_size > 20 then
    match get_font_path env "arial.ttf" font_size with
    | .error e => .error e
    | .ok font =>
      let text_bbox := textbbox env font full_name
      let text_width := text_bbox.right - text_bbox.left
      let text_height := text_bbox.bottom - text_bbox.top
      if text_width ≤ 941 ∧ text_height ≤ 275 then
        .ok (some (font_size, font))
      else
        fit_loop env full_name (font_size - 5)
  else
    .ok none
termination_by font_size
decreasing_by omega

/-- Number of executions of the body of the `while font_size > 20` loop when
started at `font_size`: the iteration on which the loop accepts (or raises)
counts as one. -/
def fit_iters (env : Env) (full_name : String) (font_size : Nat) : Nat :=
  if h : font_size > 20 then
    match get_font_path env "arial.ttf" font_size with
    | .error _ => 1
    | .ok font =>
      let text_bbox := textbbox env font full_name
      if text_bbox.right - text_bbox.left ≤ 941 ∧ text_bbox.bottom - text_bbox.top ≤ 275 then
        1
      else
        1 + fit_iters env full_name (font_size - 5)
  else
    0
termination_by font_size
decreasing_by omega

/-- The value returned by `create_label_image` — the image — together with
the final values of its `font_size` and `font` locals (reported by the
source at line 210 and fixed by the spec's `LabelResult` as
`chosen_font_size` / `chosen_font`). -/
structure LabelResult where
  image : LabelImage
  font_size : Nat
  font : Font
deriving DecidableEq, Repr

/-- `create_label_image(first_name, last_name)` (`src/badge_app.py` lines
146-211): render `full_name = f"{first_name} {last_name}"` onto a white
991×306 grayscale (`"L"`) canvas.  Search a font size from 120 downward
(`fit_loop`); when the loop exhausts (exit with `font_size <= 20`), clamp to
20 and reload a font at that size.  Then re-measure the bounding box, center
horizontally with `x = (991 - text_width) // 2`, compute
`text_visual_height` from `ascent - descent` when the font has `getmetrics`
(TrueType) and from the bounding box height otherwise (the default bitmap
font), place `y = (306 - text_visual_height) // 2 - text_bbox[1]`, and draw
`full_name` in black.  Python `//` is `Int.fdiv`. -/
def create_label_image (env : Env) (first_name last_name : String) :
    Except LayoutError LabelResult :=
  let label_width : Int := 991
  let label_height : Int := 306
  let full_name := first_name ++ " " ++ last_name
  match fit_loop env full_name 120 with
  | .error e => .error e
  | .ok acc =>
    match (match acc with
           | some sf => Except.ok sf
           | none => (get_font_path env "arial.ttf" 20).map (fun f => (20, f))) with
    | .error e => .error e
    | .ok (font_size, font) =>
      let text_bbox := textbbox env font full_name
      let text_width := text_bbox.right - text_bbox.left
      let text_height := text_bbox.bottom - text_bbox.top
      let x := Int.fdiv (label_width - text_width) 2
      let text_visual_height :=
        match font with
        | .truetype p s => (env.ttMetrics p s).1 - (env.ttMetrics p s).2
        | .default_ => text_height
      let y := Int.fdiv (label_height - text_visual_height) 2 - text_bbox.top
      .ok { image := { mode := "L", width := label_width, height := label_height,
                       background := "white",
                       draws := [{ x := x, y := y, text := full_name,
                                   fill := "black", font := font }] },
            font_size := font_size, font := font }

/-- The final `font_size` local of `create_label_image` as a function of the
size the search loop starts at (the source starts it at 120): the accepted
size, or 20 after exhaustion (in which case the reload of the font at size
20 can still raise). -/
def chosen_font_size (env : Env) (full_name : String) (start_size : Nat) :
    Except LayoutError Nat :=
  match fit_loop env full_name start_size with
  | .error e => .error e
  | .ok (some (s, _)) => .ok s
  | .ok none => (get_font_path env "arial.ttf" 20).map (fun _ => 20)

/-! ### Concrete environments used as witnesses and counterexamples -/

/-- An environment in which no candidate font path exists, and only the
built-in default font loads; the default font's bounding box is 2000 pixels
wide, so it never fits the 941-pixel margin. -/
def envNoCandidates : Env :=
  { is_windows := false, windir := none,
    pathExists := fun _ => false,
    ttLoad := fun _ _ => false,
    defaultLoads := true,
    ttBbox := fun _ _ _ => ⟨0, 0, 0, 0⟩,
    defaultBbox := fun _ => ⟨0, 0, 2000, 50⟩,
    ttMetrics := fun _ _ => (0, 0),
    inkFree := fun _ s => s == " " }

/-- An environment in which nothing loads at all: no candidate font path
exists and even `ImageFont.load_default()` fails. -/
def envNoFonts : Env :=
  { envNoCandidates with defaultLoads := false }

/-- An environment in which the candidate `arial.ttf` loads at every size,
with a tight bounding box of width `10 * size` and height 50, and metrics
`(ascent, descent) = (size, 0)`.  Width fits the 941-pixel margin exactly
for sizes up to 94. -/
def envArial : Env :=
  { is_windows := false, windir := none,
    pathExists := fun p => p == "arial.ttf",
    ttLoad := fun _ _ => true,
    defaultLoads := true,
    ttBbox := fun _ s _ => ⟨0, 0, 10 * (s : Int), 50⟩,
    defaultBbox := fun _ => ⟨0, 0, 0, 0⟩,
    ttMetrics := fun _ s => ((s : Int), 0),
    inkFree := fun _ s => s == " " }

/-- The result of `create_label_image envArial "A" "B"`, computed by hand:
the search accepts at size 90 (width `900 ≤ 941`), `x = (991 - 900) // 2 =
45`, visual height `90 - 0`, `y = (306 - 90) // 2 - 0 = 108`. -/
def resultArial : LabelResult :=
  { image := { mode := "L", width := 991, height := 306, background := "white",
               draws := [{ x := 45, y := 108, text := "A B",
                           fill := "black", font := .truetype "arial.ttf" 90 }] },
    font_size := 90, font := .truetype "arial.ttf" 90 }

/-- The result of `create_label_image envNoCandidates "A" "B"`, computed by
hand: every iteration falls back to the default font whose box never fits,
the loop exhausts to 20, `x = (991 - 2000) // 2 = -505` (Python floor
division), `y = (306 - 50) // 2 - 0 = 128`. -/
def resultNoCandidates : LabelResult :=
  { image := { mode := "L", width := 991, height := 306, background := "white",
               draws := [{ x := -505, y := 128, text := "A B",
                           fill := "black", font := .default_ }] },
    font_size := 20, font := .default_ }


/-! ### Spec-modelled request interface

The source hardcodes the canvas (991×306), the margin fractions (0.95, 0.9)
and the size search (120 down to 20 by 5); the parametrized
`layoutAndRender(LabelRequest)` operation with its `InvalidRequest`
validation exists only in the specification.  The definitions below are
modelled from the spec's words (sections 3, 4.1 and 7) so that the
validation behaviour is statable; margin fractions are embedded as
rationals. -/

/-- Target raster dimensions in pixels (spec data model). -/
structure Canvas where
  width : Int
  height : Int
deriving DecidableEq, Repr

/-- Fractions of the canvas usable by text (spec data model). -/
structure Margins where
  max_width_fraction : ℚ
  max_height_fraction : ℚ
deriving DecidableEq, Repr

/-- Descending candidate sizes to try (spec data model). -/
structure FontSearch where
  start_size : Nat
  min_size : Nat
  step : Nat
deriving DecidableEq, Repr

/-- Modelled from the spec: the `LabelRequest` input of `layoutAndRender`
(spec section 3), absent from the source where all of these are hardcoded
constants. -/
structure LabelRequest where
  text : String
  canvas : Canvas
  margins : Margins
  font_search : FontSearch
  font_candidates : List String
deriving DecidableEq, Repr

/-- Modelled from the spec: the `LabelResult` output of `layoutAndRender`. -/
structure SpecLabelResult where
  image : LabelImage
  chosen_font_size : Nat
  chosen_font : Font
deriving DecidableEq, Repr

/-- Modelled from the spec: the `tryLoad(id, size)` capability applied to
the ordered candidate list — the first candidate that loads wins. -/
def spec_try_load (env : Env) (cands : List String) (size : Nat) : Option Font :=
  (cands.find? (fun c => env.pathExists c && env.ttLoad c size)).map
    (fun c => Font.truetype c size)

/-- Modelled from the spec: the descending size search of `layoutAndRender`
(spec step 2), including the spec's rule 2b that the search stops at the
current size when only the default font is available.  The `fuel` argument
merely bounds the recursion; with `step > 0` (a spec invariant) it is never
exhausted when instantiated with the start size. -/
def spec_search (env : Env) (req : LabelRequest) (maxW maxH : Int) :
    Nat → Nat → Except LayoutError (Option (Nat × Font))
  | 0, _ => .ok none
  | fuel + 1, size =>
    if size > req.font_search.min_size then
      match spec_try_load env req.font_candidates size with
      | none =>
        if env.defaultLoads then .ok (some (size, .default_))
        else .error .fontUnavailable
      | some font =>
        let bb := textbbox env font req.text
        if bb.width ≤ maxW ∧ bb.height ≤ maxH then .ok (some (size, font))
        else spec_search env req maxW maxH fuel (size - req.font_search.step)
    else .ok none

/-- Modelled from the spec: placement and rendering (spec steps 4-6), the
parametrized counterpart of the tail of `create_label_image`. -/
def spec_render (env : Env) (req : LabelRequest) (size : Nat) (font : Font) :
    SpecLabelResult :=
  let bb := textbbox env font req.text
  let x := Int.fdiv (req.canvas.width - bb.width) 2
  let text_visual_height :=
    match font with
    | .truetype p s => (env.ttMetrics p s).1 - (env.ttMetrics p s).2
    | .default_ => bb.height
  let y := Int.fdiv (req.canvas.height - text_visual_height) 2 - bb.top
  { image := { mode := "L", width := req.canvas.width, height := req.canvas.height,
               background := "white",
               draws := [{ x := x, y := y, text := req.text, fill := "black", font := font }] },
    chosen_font_size := size, chosen_font := font }

/-- Modelled from the spec: `layoutAndRender(request) -> LabelResult`
(spec section 4.1) with the error taxonomy of spec section 7: requests with
non-positive canvas dimensions or margin fractions outside `(0, 1]` are
rejected with `invalidRequest` before anything is rendered; then
`max_text_width`/`max_text_height` are the floors of the canvas dimensions
times the fractions, the size search runs from `start_size`, and exhaustion
falls back to `min_size` with the first loadable candidate or the default
font. -/
def layoutAndRender (env : Env) (req : LabelRequest) :
    Except LayoutError SpecLabelResult :=
  if req.canvas.width ≤ 0 ∨ req.canvas.height ≤ 0 ∨
      req.margins.max_width_fraction ≤ 0 ∨ 1 < req.margins.max_width_fraction ∨
      req.margins.max_height_fraction ≤ 0 ∨ 1 < req.margins.max_height_fraction then
    .error .invalidRequest
  else
    let maxW : Int := Int.floor ((req.canvas.width : ℚ) * req.margins.max_width_fraction)
    let maxH : Int := Int.floor ((req.canvas.height : ℚ) * req.margins.max_height_fraction)
    match spec_search env req maxW maxH req.font_search.start_size
        req.font_search.start_size with
    | .error e => .error e
    | .ok (some (size, font)) => .ok (spec_render env req size font)
    | .ok none =>
      match spec_try_load env req.font_candidates req.font_search.min_size with
      | some font => .ok (spec_render env req req.font_search.min_size font)
      | none =>
        if env.defaultLoads then
          .ok (spec_render env req req.font_search.min_size .default_)
        else .error .fontUnavailable

/-- Scenario E of the spec: a request with `canvas.width = 0`. -/
def reqZeroWidth : LabelRequest :=
  { text := "Jane Smith", canvas := { width := 0, height := 306 },
    margins := { max_width_fraction := 95 / 100, max_height_fraction := 9 / 10 },
    font_search := { start_size := 120, min_size := 20, step := 5 },
    font_candidates := ["arial.ttf"] }

/-! ### Lemmas about the font loader and the search loop -/

theorem get_font_path_ok_of_default (env : Env) (n : String) (s : Nat)
    (hd : env.defaultLoads = true) : ∃ f, get_font_path env n s = .ok f := by
  unfold get_font_path
  cases hfind : (font_paths env).find? (fun fp => env.pathExists fp && env.ttLoad fp s) with
  | none => exact ⟨.default_, by simp [hd]⟩
  | some fp => exact ⟨.truetype fp s, rfl⟩

theorem get_font_path_error (env : Env) (n : String) (s : Nat) (e : LayoutError)
    (h : get_font_path env n s = .error e) :
    e = .fontUnavailable ∧ env.defaultLoads = false ∧
      (font_paths env).find? (fun fp => env.pathExists fp && env.ttLoad fp s) = none := by
  unfold get_font_path at h
  cases hfind : (font_paths env).find? (fun fp => env.pathExists fp && env.ttLoad fp s) with
  | none =>
    rw [hfind] at h
    cases hd : env.defaultLoads with
    | true => rw [hd] at h; simp at h
    | false => rw [hd] at h; simp at h; exact ⟨h.symm, rfl, rfl⟩
  | some fp => rw [hfind] at h; simp at h

theorem fit_loop_accept (env : Env) (t : String) :
    ∀ s sz fo, fit_loop env t s = .ok (some (sz, fo)) →
      20 < sz ∧ sz ≤ s ∧ sz % 5 = s % 5 ∧
      (textbbox env fo t).width ≤ 941 ∧ (textbbox env fo t).height ≤ 275 := by
  intro s
  induction s using Nat.strong_induction_on with
  | _ s ih =>
    intro sz fo h
    rw [fit_loop] at h
    split at h
    · rename_i hs
      split at h
      · exact absurd h (by simp)
      · rename_i font hfont
        simp only [] at h
        split at h
        · rename_i hfits
          simp only [Except.ok.injEq, Option.some.injEq, Prod.mk.injEq] at h
          obtain ⟨rfl, rfl⟩ := h
          exact ⟨hs, le_refl _, rfl, by simpa [BBox.width] using hfits.1,
            by simpa [BBox.height] using hfits.2⟩
        · obtain ⟨h1, h2, h3, h4, h5⟩ := ih (s - 5) (by omega) sz fo h
          exact ⟨h1, by omega, by omega, h4, h5⟩
    · simp at h

theorem fit_loop_ok_of_default (env : Env) (t : String)
    (hd : env.defaultLoads = true) : ∀ s, ∃ r, fit_loop env t s = .ok r := by
  intro s
  induction s using Nat.strong_induction_on with
  | _ s ih =>
    rw [fit_loop]
    split
    · rename_i hs
      obtain ⟨f, hf⟩ := get_font_path_ok_of_default env "arial.ttf" s hd
      rw [hf]
      simp only []
      split
      · exact ⟨some (s, f), rfl⟩
      · exact ih (s - 5) (by omega)
    · exact ⟨none, rfl⟩

theorem fit_loop_error (env : Env) (t : String) :
    ∀ s e, fit_loop env t s = .error e →
      ∃ s', get_font_path env "arial.ttf" s' = .error e := by
  intro s
  induction s using Nat.strong_induction_on with
  | _ s ih =>
    intro e h
    rw [fit_loop] at h
    split at h
    · split at h
      · rename_i hg
        cases h
        exact ⟨s, hg⟩
      · simp only [] at h
        split at h
        · simp at h
        · exact ih (s - 5) (by omega) e h
    · simp at h

/-- One unrolling of the search loop: starting 5 higher either accepts
immediately at the new start, raises, or agrees with the search from the old
start. -/
theorem fit_loop_step5 (env : Env) (t : String) (s : Nat) :
    (∃ f, fit_loop env t (s + 5) = .ok (some (s + 5, f))) ∨
      fit_loop env t (s + 5) = fit_loop env t s ∨
      (∃ e, fit_loop env t (s + 5) = .error e) := by
  by_cases hs : s + 5 > 20
  · rw [show fit_loop env t (s + 5) =
        (if h : s + 5 > 20 then
          match get_font_path env "arial.ttf" (s + 5) with
          | .error e => .error e
          | .ok font =>
            let text_bbox := textbbox env font t
            let text_width := text_bbox.right - text_bbox.left
            let text_height := text_bbox.bottom - text_bbox.top
            if text_width ≤ 941 ∧ text_height ≤ 275 then
              .ok (some (s + 5, font))
            else
              fit_loop env t (s + 5 - 5)
        else .ok none) from by rw [← fit_loop]]
    rw [dif_pos hs]
    cases hg : get_font_path env "arial.ttf" (s + 5) with
    | error e => exact Or.inr (Or.inr ⟨e, rfl⟩)
    | ok font =>
      simp only []
      split
      · exact Or.inl ⟨font, rfl⟩
      · right; left
        congr 1
  · -- s + 5 ≤ 20, hence s ≤ 20 as well: both searches return `ok none`
    rw [fit_loop, dif_neg hs, fit_loop, dif_neg (show ¬s > 20 by omega)]
    exact Or.inr (Or.inl rfl)

/-- How `create_label_image` gets its final size and font: either the loop
accepted them, or the loop exhausted and the font was reloaded at size 20. -/
theorem create_ok_cases (env : Env) (f l : String) (r : LabelResult)
    (h : create_label_image env f l = .ok r) :
    fit_loop env (f ++ " " ++ l) 120 = .ok (some (r.font_size, r.font)) ∨
      (fit_loop env (f ++ " " ++ l) 120 = .ok none ∧ r.font_size = 20 ∧
        get_font_path env "arial.ttf" 20 = .ok r.font) := by
  unfold create_label_image at h
  simp only [] at h
  cases hfit : fit_loop env (f ++ " " ++ l) 120 with
  | error e => rw [hfit] at h; simp at h
  | ok acc =>
    rw [hfit] at h
    cases acc with
    | some sf =>
      obtain ⟨fs, fo⟩ := sf
      simp only [] at h
      injection h with h
      subst h
      exact Or.inl rfl
    | none =>
      cases hg : get_font_path env "arial.ttf" 20 with
      | error e => rw [hg] at h; simp [Except.map] at h
      | ok fo =>
        rw [hg] at h
        simp only [Except.map] at h
        injection h with h
        subst h
        exact Or.inr ⟨rfl, rfl, rfl⟩

/-- Shape of the image built by `create_label_image`: a white 991×306
grayscale canvas with a single text-draw of `full_name` in black, in the
final font, horizontally placed at `x = (991 - text_width) // 2`. -/
theorem create_ok_image (env : Env) (f l : String) (r : LabelResult)
    (h : create_label_image env f l = .ok r) :
    r.image.mode = "L" ∧ r.image.width = 991 ∧ r.image.height = 306 ∧
      r.image.background = "white" ∧
      ∃ y, r.image.draws =
        [{ x := Int.fdiv (991 - (textbbox env r.font (f ++ " " ++ l)).width) 2,
           y := y, text := f ++ " " ++ l, fill := "black", font := r.font }] := by
  unfold create_label_image at h
  simp only [] at h
  cases hfit : fit_loop env (f ++ " " ++ l) 120 with
  | error e => rw [hfit] at h; simp at h
  | ok acc =>
    rw [hfit] at h
    cases acc with
    | some sf =>
      obtain ⟨fs, fo⟩ := sf
      simp only [] at h
      injection h with h
      subst h
      exact ⟨rfl, rfl, rfl, rfl, _, rfl⟩
    | none =>
      cases hg : get_font_path env "arial.ttf" 20 with
      | error e => rw [hg] at h; simp [Except.map] at h
      | ok fo =>
        rw [hg] at h
        simp only [Except.map] at h
        injection h with h
        subst h
        exact ⟨rfl, rfl, rfl, rfl, _, rfl⟩

/-- When the built-in default font is loadable, every `get_font_path` call
succeeds and `create_label_image` returns a result. -/
theorem create_ok_of_default (env : Env) (f l : String)
    (hd : env.defaultLoads = true) :
    ∃ r, create_label_image env f l = .ok r := by
  unfold create_label_image
  simp only []
  obtain ⟨acc, hfit⟩ := fit_loop_ok_of_default env (f ++ " " ++ l) hd 120
  rw [hfit]
  cases acc with
  | some sf => obtain ⟨fs, fo⟩ := sf; exact ⟨_, rfl⟩
  | none =>
    obtain ⟨fo, hg⟩ := get_font_path_ok_of_default env "arial.ttf" 20 hd
    rw [hg]
    exact ⟨_, rfl⟩

/-- `create_label_image` can only fail by propagating the failure of
`ImageFont.load_default()`: the error is the font-unavailable one, the
default font did not load, and at some size the whole candidate list had
failed to produce a font. -/
theorem create_error (env : Env) (f l : String) (e : LayoutError)
    (h : create_label_image env f l = .error e) :
    e = .fontUnavailable ∧ env.defaultLoads = false ∧
      ∃ s, (font_paths env).find? (fun fp => env.pathExists fp && env.ttLoad fp s) = none := by
  unfold create_label_image at h
  simp only [] at h
  cases hfit : fit_loop env (f ++ " " ++ l) 120 with
  | error e' =>
    rw [hfit] at h
    simp only [Except.error.injEq] at h
    subst h
    obtain ⟨s', hg⟩ := fit_loop_error env (f ++ " " ++ l) 120 e' hfit
    obtain ⟨he, hd, hfind⟩ := get_font_path_error env "arial.ttf" s' e' hg
    exact ⟨he, hd, s', hfind⟩
  | ok acc =>
    rw [hfit] at h
    cases acc with
    | some sf => obtain ⟨fs, fo⟩ := sf; simp at h
    | none =>
      cases hg : get_font_path env "arial.ttf" 20 with
      | error e' =>
        rw [hg] at h
        simp only [Except.map, Except.error.injEq] at h
        subst h
        obtain ⟨he, hd, hfind⟩ := get_font_path_error env "arial.ttf" 20 e' hg
        exact ⟨he, hd, 20, hfind⟩
      | ok fo => rw [hg] at h; simp [Except.map] at h

/-- When nothing in the environment loads — no candidate path produces a
font at any size and the default font fails too — `create_label_image`
propagates the font-unavailable error. -/
theorem create_error_of_nothing (env : Env) (f l : String)
    (hc : ∀ p s, (env.pathExists p && env.ttLoad p s) = false)
    (hd : env.defaultLoads = false) :
    create_label_image env f l = .error .fontUnavailable := by
  have hg : ∀ n s, get_font_path env n s = .error .fontUnavailable := by
    intro n s
    unfold get_font_path
    have hfind : (font_paths env).find? (fun fp => env.pathExists fp && env.ttLoad fp s) = none := by
      rw [List.find?_eq_none]
      intro x _
      simp [hc x s]
    rw [hfind, hd]
    simp
  have hfit : fit_loop env (f ++ " " ++ l) 120 = .error .fontUnavailable := by
    rw [fit_loop]
    rw [dif_pos (by omega), hg]
  unfold create_label_image
  simp only []
  rw [hfit]

theorem chosen_font_size_bounds (env : Env) (t : String) (s a : Nat)
    (h : chosen_font_size env t s = .ok a) : 20 ≤ a ∧ (a ≤ s ∨ a = 20) := by
  unfold chosen_font_size at h
  cases hfit : fit_loop env t s with
  | error e => rw [hfit] at h; simp at h
  | ok acc =>
    rw [hfit] at h
    cases acc with
    | some sf =>
      obtain ⟨fs, fo⟩ := sf
      simp only [Except.ok.injEq] at h
      subst h
      obtain ⟨h1, h2, -, -, -⟩ := fit_loop_accept env t s fs fo hfit
      exact ⟨by omega, Or.inl h2⟩
    | none =>
      cases hg : get_font_path env "arial.ttf" 20 with
      | error e => rw [hg] at h; simp [Except.map] at h
      | ok fo =>
        rw [hg] at h
        simp only [Except.map, Except.ok.injEq] at h
        subst h
        exact ⟨le_refl _, Or.inr rfl⟩

theorem chosen_font_size_congr (env : Env) (t : String) (s₁ s₂ : Nat)
    (h : fit_loop env t s₁ = fit_loop env t s₂) :
    chosen_font_size env t s₁ = chosen_font_size env t s₂ := by
  unfold chosen_font_size
  rw [h]

/-- C8 (amended): for a fixed environment and fixed text — in particular a
fixed font — and the fixed `min_size = 20` and `step = 5` of the code,
increasing the start size of the descending first-fit search by a multiple
of the step never decreases the final chosen font size (the sizes tried
from the higher start contain all sizes tried from the lower one). -/
theorem claim8_start_size_mono (env : Env) (t : String) (s k a b : Nat)
    (ha : chosen_font_size env t s = .ok a)
    (hb : chosen_font_size env t (s + 5 * k) = .ok b) : a ≤ b := by
  induction k generalizing b with
  | zero =>
    rw [show s + 5 * 0 = s from by omega] at hb
    rw [ha] at hb
    simp only [Except.ok.injEq] at hb
    omega
  | succ k ih =>
    rw [show s + 5 * (k + 1) = s + 5 * k + 5 from by omega] at hb
    -- chain through the intermediate start `s + 5 * k`
    rcases fit_loop_step5 env t (s + 5 * k) with ⟨f, hacc⟩ | heq | ⟨e, herr⟩
    · have hb' : b = s + 5 * k + 5 := by
        unfold chosen_font_size at hb
        rw [hacc] at hb
        simp at hb
        omega
      obtain ⟨-, h2⟩ := chosen_font_size_bounds env t s a ha
      obtain ⟨h3, -, -, -, -⟩ := fit_loop_accept env t (s + 5 * k + 5) (s + 5 * k + 5) f hacc
      omega
    · rw [chosen_font_size_congr env t (s + 5 * k + 5) (s + 5 * k) heq] at hb
      exact ih b hb
    · unfold chosen_font_size at hb
      rw [herr] at hb
      simp at hb

theorem fit_iters_le (env : Env) (t : String) :
    ∀ s, fit_iters env t s ≤ (s - 16) / 5 := by
  intro s
  induction s using Nat.strong_induction_on with
  | _ s ih =>
    rw [fit_iters]
    split
    · rename_i hs
      split
      · omega
      · simp only []
        split
        · omega
        · have := ih (s - 5) (by omega)
          omega
    · omega

theorem create_label_image_chosen (env : Env) (f l : String) (r : LabelResult)
    (h : create_label_image env f l = .ok r) :
    chosen_font_size env (f ++ " " ++ l) 120 = .ok r.font_size := by
  rcases create_ok_cases env f l r h with hacc | ⟨hnone, hfs, hg⟩
  · unfold chosen_font_size
    rw [hacc]
  · unfold chosen_font_size
    rw [hnone, hg, hfs]
    rfl

/-- The two floor divisions in the horizontal centering always sum back to
`991 // 2`: `991 - w` and `w` have opposite parities. -/
theorem centering_sum (w : Int) : (991 - w).fdiv 2 + w.fdiv 2 = 495 := by
  rw [Int.fdiv_eq_ediv _ (by norm_num), Int.fdiv_eq_ediv _ (by norm_num)]
  omega

/-! ### Concrete evaluations -/

theorem create_envArial : create_label_image envArial "A" "B" = .ok resultArial := by
  simp [create_label_image, fit_loop, get_font_path, font_paths, textbbox, envArial,
    Except.map, resultArial]

theorem create_envNoCandidates :
    create_label_image envNoCandidates "A" "B" = .ok resultNoCandidates := by
  simp [create_label_image, fit_loop, get_font_path, font_paths, textbbox, envNoCandidates,
    Except.map, resultNoCandidates]

/-! ### The claims -/

/-- C1: for every input whose size search accepts a font size strictly above
the minimum (the non-overflow case), the loop accepted exactly the returned
size/font pair, and the tight bounding box of the text in that font
satisfies `width ≤ int(991 * 0.95) = 941` and `height ≤ int(306 * 0.9) =
275` — the loop accepts only when this fit test passes. -/
theorem claim1_accepted_fits (env : Env) (f l : String) (r : LabelResult)
    (h : create_label_image env f l = .ok r) (hs : 20 < r.font_size) :
    fit_loop env (f ++ " " ++ l) 120 = .ok (some (r.font_size, r.font)) ∧
      (textbbox env r.font (f ++ " " ++ l)).width ≤ 941 ∧
      (textbbox env r.font (f ++ " " ++ l)).height ≤ 275 := by
  rcases create_ok_cases env f l r h with hacc | ⟨-, hfs, -⟩
  · obtain ⟨-, -, -, h4, h5⟩ :=
      fit_loop_accept env (f ++ " " ++ l) 120 r.font_size r.font hacc
    exact ⟨hacc, h4, h5⟩
  · omega

theorem claim1_witness :
    fit_loop envArial ("A" ++ " " ++ "B") 120 =
        .ok (some (90, Font.truetype "arial.ttf" 90)) ∧
      (textbbox envArial (Font.truetype "arial.ttf" 90) ("A" ++ " " ++ "B")).width ≤ 941 ∧
      (textbbox envArial (Font.truetype "arial.ttf" 90) ("A" ++ " " ++ "B")).height ≤ 275 :=
  claim1_accepted_fits envArial "A" "B" resultArial create_envArial (by decide)

/-- When no candidate path exists, every `get_font_path` call returns the
default font (it never returns a falsy value). -/
theorem get_font_path_default (env : Env) (n : String) (s : Nat)
    (hc : ∀ p, env.pathExists p = false) (hd : env.defaultLoads = true) :
    get_font_path env n s = .ok .default_ := by
  unfold get_font_path
  have hfind : (font_paths env).find? (fun fp => env.pathExists fp && env.ttLoad fp s) = none := by
    rw [List.find?_eq_none]
    intro x _
    simp [hc x]
  rw [hfind]
  simp [hd]

/-- With only the default font available and its box not fitting, the loop
keeps shrinking the size and exhausts. -/
theorem fit_loop_default_nofit (env : Env) (t : String)
    (hc : ∀ p, env.pathExists p = false) (hd : env.defaultLoads = true)
    (hnf : ¬((env.defaultBbox t).width ≤ 941 ∧ (env.defaultBbox t).height ≤ 275)) :
    ∀ s, fit_loop env t s = .ok none := by
  intro s
  induction s using Nat.strong_induction_on with
  | _ s ih =>
    rw [fit_loop]
    split
    · rename_i hs
      rw [get_font_path_default env "arial.ttf" s hc hd]
      simp only []
      rw [if_neg (by simpa [textbbox, BBox.width, BBox.height] using hnf)]
      exact ih (s - 5) (by omega)
    · rfl

/-- C2 counterexample: in an environment where no candidate font loads at
any size (every path is absent) and the default font's box does not fit,
the engine does not stop the search at the start size 120 as the claim
states — it runs the fit test with the default font on all 20 iterations
and exhausts to the clamped minimum size 20. -/
theorem claim2_counterexample :
    create_label_image envNoCandidates "A" "B" = .ok resultNoCandidates ∧
      resultNoCandidates.font_size = 20 ∧ resultNoCandidates.font = .default_ ∧
      fit_iters envNoCandidates ("A" ++ " " ++ "B") 120 = 20 := by
  refine ⟨create_envNoCandidates, rfl, rfl, ?_⟩
  simp [fit_iters, get_font_path, font_paths, textbbox, envNoCandidates]

/-- C2 (amended): when no font in the candidate list loads, `get_font_path`
returns the engine's built-in default font rather than a falsy value, so
the search loop treats it like any other font: the bounding-box fit test is
run with the default font, the start size is kept only if that box fits,
and otherwise smaller sizes are attempted all the way down to the clamped
minimum of 20 (the default font is chosen in every case). -/
theorem claim2_default_font_search (env : Env) (f l : String)
    (hc : ∀ p, env.pathExists p = false) (hd : env.defaultLoads = true) :
    ∃ r, create_label_image env f l = .ok r ∧ r.font = .default_ ∧
      (((env.defaultBbox (f ++ " " ++ l)).width ≤ 941 ∧
          (env.defaultBbox (f ++ " " ++ l)).height ≤ 275) → r.font_size = 120) ∧
      (¬((env.defaultBbox (f ++ " " ++ l)).width ≤ 941 ∧
          (env.defaultBbox (f ++ " " ++ l)).height ≤ 275) → r.font_size = 20) := by
  obtain ⟨r, hr⟩ := create_ok_of_default env f l hd
  by_cases hfit : (env.defaultBbox (f ++ " " ++ l)).width ≤ 941 ∧
      (env.defaultBbox (f ++ " " ++ l)).height ≤ 275
  · have hloop : fit_loop env (f ++ " " ++ l) 120 = .ok (some (120, .default_)) := by
      rw [fit_loop]
      rw [dif_pos (by omega), get_font_path_default env "arial.ttf" 120 hc hd]
      simp only []
      rw [if_pos (by simpa [textbbox, BBox.width, BBox.height] using hfit)]
    rcases create_ok_cases env f l r hr with hacc | ⟨hnone, -, -⟩
    · rw [hloop] at hacc
      simp only [Except.ok.injEq, Option.some.injEq, Prod.mk.injEq] at hacc
      exact ⟨r, hr, hacc.2.symm, fun _ => hacc.1.symm, fun hn => absurd hfit hn⟩
    · rw [hloop] at hnone
      simp at hnone
  · have hloop := fit_loop_default_nofit env (f ++ " " ++ l) hc hd hfit 120
    rcases create_ok_cases env f l r hr with hacc | ⟨-, hfs, hg⟩
    · rw [hloop] at hacc
      simp at hacc
    · rw [get_font_path_default env "arial.ttf" 20 hc hd] at hg
      simp only [Except.ok.injEq] at hg
      exact ⟨r, hr, hg.symm, fun hy => absurd hy hfit, fun _ => hfs⟩

theorem claim2_witness :
    ∃ r, create_label_image envNoCandidates "A" "B" = .ok r ∧ r.font = .default_ ∧
      (((envNoCandidates.defaultBbox ("A" ++ " " ++ "B")).width ≤ 941 ∧
          (envNoCandidates.defaultBbox ("A" ++ " " ++ "B")).height ≤ 275) → r.font_size = 120) ∧
      (¬((envNoCandidates.defaultBbox ("A" ++ " " ++ "B")).width ≤ 941 ∧
          (envNoCandidates.defaultBbox ("A" ++ " " ++ "B")).height ≤ 275) → r.font_size = 20) :=
  claim2_default_font_search envNoCandidates "A" "B" (fun _ => rfl) rfl

/-- C3: the engine signals an error exactly when nothing loads — if no
candidate path produces a font at any size and the default font fails,
`create_label_image` propagates the font-unavailable error to its caller;
whenever the default font loads the call returns a result; and any error the
call can signal is the font-unavailable one, arising only when the default
font failed after the whole candidate list failed at some size. -/
theorem claim3_font_unavailable (env : Env) (f l : String) :
    ((∀ p s, (env.pathExists p && env.ttLoad p s) = false) →
        env.defaultLoads = false →
        create_label_image env f l = .error .fontUnavailable) ∧
      (env.defaultLoads = true → ∃ r, create_label_image env f l = .ok r) ∧
      (∀ e, create_label_image env f l = .error e →
        e = .fontUnavailable ∧ env.defaultLoads = false ∧
          ∃ s, (font_paths env).find?
            (fun fp => env.pathExists fp && env.ttLoad fp s) = none) :=
  ⟨fun hc hd => create_error_of_nothing env f l hc hd,
   fun hd => create_ok_of_default env f l hd,
   fun e he => create_error env f l e he⟩

theorem claim3_witness :
    create_label_image envNoFonts "A" "B" = .error .fontUnavailable :=
  (claim3_font_unavailable envNoFonts "A" "B").1 (fun _ _ => rfl) rfl

/-- C4: a request with a non-positive canvas dimension or a margin fraction
outside `(0, 1]` is rejected by the spec-modelled `layoutAndRender` with the
`invalidRequest` error before any rendering is attempted — the result
carries no image. -/
theorem claim4_invalid_request (env : Env) (req : LabelRequest)
    (h : req.canvas.width ≤ 0 ∨ req.canvas.height ≤ 0 ∨
        req.margins.max_width_fraction ≤ 0 ∨ 1 < req.margins.max_width_fraction ∨
        req.margins.max_height_fraction ≤ 0 ∨ 1 < req.margins.max_height_fraction) :
    layoutAndRender env req = .error .invalidRequest := by
  unfold layoutAndRender
  rw [if_pos h]

theorem claim4_witness : layoutAndRender envArial reqZeroWidth = .error .invalidRequest :=
  claim4_invalid_request envArial reqZeroWidth (Or.inl (by norm_num [reqZeroWidth]))

/-- C5: the final font size is always a member of the descending candidate
sequence 120, 115, ..., 25, or exactly the clamped minimum 20 — that is, a
multiple of 5 between 20 and 120. -/
theorem claim5_size_in_grid (env : Env) (f l : String) (r : LabelResult)
    (h : create_label_image env f l = .ok r) :
    r.font_size % 5 = 0 ∧ 20 ≤ r.font_size ∧ r.font_size ≤ 120 := by
  rcases create_ok_cases env f l r h with hacc | ⟨-, hfs, -⟩
  · obtain ⟨h1, h2, h3, -, -⟩ :=
      fit_loop_accept env (f ++ " " ++ l) 120 r.font_size r.font hacc
    omega
  · omega

theorem claim5_witness :
    resultArial.font_size % 5 = 0 ∧ 20 ≤ resultArial.font_size ∧
      resultArial.font_size ≤ 120 :=
  claim5_size_in_grid envArial "A" "B" resultArial create_envArial

/-- C6: for every input — the empty strings included — as long as the
built-in default font is loadable the engine returns without error an image
of exactly 991×306 pixels in single-channel grayscale mode `"L"` with white
background, on which exactly the composed name is drawn; when both names are
empty the drawn string is the single separator space, so the canvas stays
blank whenever the rasterizer deposits no ink for a space. -/
theorem claim6_canvas (env : Env) (f l : String) (hd : env.defaultLoads = true) :
    ∃ r, create_label_image env f l = .ok r ∧
      r.image.mode = "L" ∧ r.image.width = 991 ∧ r.image.height = 306 ∧
      r.image.background = "white" ∧
      (∃ op, r.image.draws = [op] ∧ op.text = f ++ " " ++ l) ∧
      (f = "" → l = "" → env.inkFree r.font " " = true → r.image.isBlank env = true) := by
  obtain ⟨r, hr⟩ := create_ok_of_default env f l hd
  obtain ⟨h1, h2, h3, h4, y, h5⟩ := create_ok_image env f l r hr
  refine ⟨r, hr, h1, h2, h3, h4, ⟨_, h5, rfl⟩, fun hf hl hink => ?_⟩
  subst hf; subst hl
  unfold LabelImage.isBlank
  rw [h5]
  simpa using hink

theorem claim6_witness :
    ∃ r, create_label_image envNoCandidates "" "" = .ok r ∧
      r.image.mode = "L" ∧ r.image.width = 991 ∧ r.image.height = 306 ∧
      r.image.background = "white" ∧
      (∃ op, r.image.draws = [op] ∧ op.text = "" ++ " " ++ "") ∧
      ("" = "" → "" = "" → envNoCandidates.inkFree r.font " " = true →
        r.image.isBlank envNoCandidates = true) :=
  claim6_canvas envNoCandidates "" "" rfl

/-- C7: for every accepted result the single draw of the text is placed at
`x = (991 - text_width) // 2` (Python floor division), and therefore
`x + text_width // 2` coincides with `991 // 2` up to one pixel. -/
theorem claim7_centering (env : Env) (f l : String) (r : LabelResult)
    (h : create_label_image env f l = .ok r) (hs : 20 < r.font_size) :
    ∃ op, r.image.draws = [op] ∧
      op.x = Int.fdiv (991 - (textbbox env r.font (f ++ " " ++ l)).width) 2 ∧
      |op.x + Int.fdiv (textbbox env r.font (f ++ " " ++ l)).width 2 -
          Int.fdiv 991 2| ≤ 1 := by
  obtain ⟨-, -, -, -, y, h5⟩ := create_ok_image env f l r h
  refine ⟨_, h5, rfl, ?_⟩
  have hsum := centering_sum ((textbbox env r.font (f ++ " " ++ l)).width)
  have h991 : Int.fdiv 991 2 = 495 := by decide
  rw [h991]
  rw [abs_le]
  constructor <;> simp only [] <;> omega

theorem claim7_witness :
    ∃ op, resultArial.image.draws = [op] ∧
      op.x = Int.fdiv (991 - (textbbox envArial resultArial.font ("A" ++ " " ++ "B")).width) 2 ∧
      |op.x + Int.fdiv (textbbox envArial resultArial.font ("A" ++ " " ++ "B")).width 2 -
          Int.fdiv 991 2| ≤ 1 :=
  claim7_centering envArial "A" "B" resultArial create_envArial (by decide)

/-- C8 counterexample: with the fixed font `arial.ttf` loading at every size
and a box of width `10 * size` (so the largest fitting size is 94, since
`940 ≤ 941 < 950`), increasing the start size from 94 to 95 moves the
search onto a different grid — 95, 90, ... — and decreases the chosen size
from 94 to 90, refuting the claim for increases that are not multiples of
the step. -/
theorem claim8_counterexample :
    chosen_font_size envArial "A B" 94 = .ok 94 ∧
      chosen_font_size envArial "A B" 95 = .ok 90 := by
  constructor <;>
    simp [chosen_font_size, fit_loop, get_font_path, font_paths, textbbox, envArial]

theorem claim8_witness :
    chosen_font_size envArial "A B" 94 = .ok 94 ∧
      chosen_font_size envArial "A B" (94 + 5 * 1) = .ok 94 ∧ (94 : Nat) ≤ 94 := by
  have h1 : chosen_font_size envArial "A B" 94 = .ok 94 := by
    simp [chosen_font_size, fit_loop, get_font_path, font_paths, textbbox, envArial]
  have h2 : chosen_font_size envArial "A B" (94 + 5 * 1) = .ok 94 := by
    simp [chosen_font_size, fit_loop, get_font_path, font_paths, textbbox, envArial]
  exact ⟨h1, h2, claim8_start_size_mono envArial "A B" 94 1 94 94 h1 h2⟩

/-- C9: the size-search loop runs at most `(120 - 20) / 5 = 20` iterations,
whatever the text and environment — each non-accepting iteration decreases
the size by the step until the loop condition fails. -/
theorem claim9_iteration_bound (env : Env) (t : String) :
    fit_iters env t 120 ≤ 20 := by
  have := fit_iters_le env t 120
  omega

/-- C10: `get_font_path` never consults its `font_name` parameter — two
calls with different requested font identifiers but the same environment
and size return the same font handle. -/
theorem claim10_font_name_ignored (env : Env) (n₁ n₂ : String) (s : Nat) :
    get_font_path env n₁ s = get_font_path env n₂ s := rfl
